import Mathlib

/-
Shallow embedding of `src/arbitrage_monitor.py` (CS odds arbitrage monitor).

Modelling conventions:
* Python strings are modelled as lists of Unicode code points (`Str := List Nat`);
  `str.lower` is modelled on the ASCII range (the only range the engine's
  filler tokens and examples exercise), `str.strip` removes ASCII whitespace.
* Python floats are modelled as exact rationals (`ℚ`); `round(x, 2)` is
  modelled as round-half-to-even at two decimals (`pyRound`/`round2`).
* `max(iterable, key=f)` keeps the first element among ties (`maxBy`).
* Python's insertion-ordered `dict` used by `group_by_match` is modelled as an
  association list with `setdefault`-append semantics (`addToBucket`).
-/

namespace ArbMon

/-- A Python string, as its list of code points. -/
abbrev Str := List Nat

/-- Embed a Lean string literal as a `Str` (list of code points). -/
def nm (s : String) : Str := s.toList.map Char.toNat

/-- ASCII whitespace test, modelling what `str.strip` removes
(space, tab, LF, VT, FF, CR). -/
def isSpaceN (n : Nat) : Bool :=
  decide (n = 32 ∨ n = 9 ∨ n = 10 ∨ n = 11 ∨ n = 12 ∨ n = 13)

/-- Python `str.lower` on one code point (ASCII range). -/
def lowerN (n : Nat) : Nat := if 65 ≤ n ∧ n ≤ 90 then n + 32 else n

/-- Python `str.lower` on a whole string. -/
def lowerStr (s : Str) : Str := s.map lowerN

/-- Python `str.strip()`: drop leading and trailing whitespace. -/
def stripL (s : Str) : Str :=
  ((s.dropWhile isSpaceN).reverse.dropWhile isSpaceN).reverse

/-- Does `pat` occur at the head of `s`? -/
def startsWith : Str → Str → Bool
  | [], _ => true
  | _ :: _, [] => false
  | p :: ps, c :: cs => p = c && startsWith ps cs

/-- Worker for `removeAll`, structurally recursive on a fuel argument
(the fuel `s.length` always suffices since `pat` is nonempty in every use). -/
def removeGo (pat : Str) : Str → Nat → Str
  | s, 0 => s
  | [], _ + 1 => []
  | c :: cs, n + 1 =>
    if startsWith pat (c :: cs) then removeGo pat ((c :: cs).drop pat.length) n
    else c :: removeGo pat cs n

/-- Python `s.replace(pat, "")`: delete every (leftmost, non-overlapping)
occurrence of `pat` in `s`. -/
def removeAll (pat s : Str) : Str := removeGo pat s s.length

/-- Function `normalize_team` (source lines 85-88): lowercase the stripped name, delete
the substrings `"esports"`, `"esport"`, `"team"` in that order, strip again. -/
def normalize_team (name : Str) : Str :=
  stripL (removeAll (nm "team")
    (removeAll (nm "esport") (removeAll (nm "esports") (lowerStr (stripL name)))))

/-- The module-level `ALIASES` table (source lines 80-83): shipped empty. -/
def ALIASES : List (Str × List Str) := []

/-- Function `alias_lookup` (source lines 90-99): computes `normalize_team name`, then
scans `ALIASES` with a fuzzy token-set scorer, breaking at the first group whose
best score reaches the threshold.  In the source `ALIASES` is the empty dict, so
the loop body never executes and `best` remains the normalized name. -/
def alias_lookup (name : Str) : Str := normalize_team name

/-- Lexicographic (code-point) string comparison, as Python compares strings. -/
def lexLe : Str → Str → Bool
  | [], _ => true
  | _ :: _, [] => false
  | a :: as_, b :: bs => if a < b then true else if b < a then false else lexLe as_ bs

/-- Python `tuple(sorted([a, b]))`: the ordered pair of two strings. -/
def sortPair (a b : Str) : Str × Str := if lexLe a b then (a, b) else (b, a)

/-- One bookmaker quotation for one event (source dataclass `EventOdds`,
lines 59-75).  The free-form `raw` diagnostic dict is not modelled (unused by
the engine); `start_time` is an abstract optional timestamp. -/
structure EventOdds where
  match_id : Str
  site : Str
  sport : Str
  league : Option Str
  start_time : Option Nat
  team1 : Str
  team2 : Str
  odds_team1 : ℚ
  odds_team2 : ℚ
deriving DecidableEq, Repr

/-- Method `EventOdds.teams_key` (source lines 72-75): the sorted pair of the two
normalized team names. -/
def EventOdds.teams_key (e : EventOdds) : Str × Str :=
  sortPair (normalize_team e.team1) (normalize_team e.team2)

/-- Function `implied_prob` (source lines 111-112). -/
def implied_prob (odds : ℚ) : ℚ := 1 / odds

/-- The grouping key computed in `group_by_match` (source line 243):
the sorted pair of the two alias-resolved team names. -/
def matchKeyOf (t1 t2 : Str) : Str × Str := sortPair (alias_lookup t1) (alias_lookup t2)

/-- Python `buckets.setdefault(k, []).append(ev)` over an insertion-ordered dict. -/
def addToBucket (k : Str × Str) (e : EventOdds) :
    List ((Str × Str) × List EventOdds) → List ((Str × Str) × List EventOdds)
  | [] => [(k, [e])]
  | (k', l) :: rest =>
    if k' = k then (k', l ++ [e]) :: rest else (k', l) :: addToBucket k e rest

/-- Function `group_by_match` (source lines 240-245). -/
def group_by_match (events : List EventOdds) : List ((Str × Str) × List EventOdds) :=
  events.foldl (fun b ev => addToBucket (matchKeyOf ev.team1 ev.team2) ev b) []

/-- Python `max(xs, key=f)` over the nonempty list `x :: xs`: first maximum wins. -/
def maxBy (f : EventOdds → ℚ) (x : EventOdds) (xs : List EventOdds) : EventOdds :=
  xs.foldl (fun b e => if f b < f e then e else b) x

/-- The dict returned by `detect_two_way_arbitrage` on a hit
(source lines 256-265). -/
structure ArbResult where
  team1 : Str
  team2 : Str
  site_team1 : Str
  site_team2 : Str
  odds_team1 : ℚ
  odds_team2 : ℚ
  prob_sum : ℚ
  margin : ℚ
deriving DecidableEq, Repr

/-- Function `detect_two_way_arbitrage` (source lines 248-266). -/
def detect_two_way_arbitrage (booklines : List EventOdds) : Option ArbResult :=
  match booklines with
  | [] => none
  | e :: es =>
    let best_t1 := maxBy (fun x => x.odds_team1) e es
    let best_t2 := maxBy (fun x => x.odds_team2) e es
    let p_sum := implied_prob best_t1.odds_team1 + implied_prob best_t2.odds_team2
    if p_sum < 1 then
      some { team1 := best_t1.team1, team2 := best_t2.team2,
             site_team1 := best_t1.site, site_team2 := best_t2.site,
             odds_team1 := best_t1.odds_team1, odds_team2 := best_t2.odds_team2,
             prob_sum := p_sum, margin := 1 - p_sum }
    else none

/-- Python's `round` to an integer: round half to even (banker's rounding),
on the exact rational value. -/
def pyRound (q : ℚ) : ℤ :=
  if q - ⌊q⌋ < 1/2 then ⌊q⌋
  else if 1/2 < q - ⌊q⌋ then ⌊q⌋ + 1
  else if 2 ∣ ⌊q⌋ then ⌊q⌋ else ⌊q⌋ + 1

/-- Python's `round(q, 2)`. -/
def round2 (q : ℚ) : ℚ := (pyRound (q * 100) : ℚ) / 100

/-- The local `s1` of `stake_split` (source line 273):
`total_stake * (inv1 / (inv1 + inv2))`. -/
def rawStake1 (total_stake odds1 odds2 : ℚ) : ℚ :=
  total_stake * ((1 / odds1) / (1 / odds1 + 1 / odds2))

/-- The local `s2` of `stake_split` (source line 274): the exact complement. -/
def rawStake2 (total_stake odds1 odds2 : ℚ) : ℚ :=
  total_stake - rawStake1 total_stake odds1 odds2

/-- The local `profit` of `stake_split` (source line 275). -/
def rawProfit (total_stake odds1 odds2 : ℚ) : ℚ :=
  min (rawStake1 total_stake odds1 odds2 * (odds1 - 1))
      (rawStake2 total_stake odds1 odds2 * (odds2 - 1))

/-- Function `stake_split` (source lines 269-276): the two stakes and the profit,
each rounded to two decimals at the output boundary. -/
def stake_split (total_stake odds1 odds2 : ℚ) : ℚ × ℚ × ℚ :=
  (round2 (rawStake1 total_stake odds1 odds2),
   round2 (rawStake2 total_stake odds1 odds2),
   round2 (rawProfit total_stake odds1 odds2))

/-- The per-bucket step of `run` (source lines 420-423): buckets of size < 2
are skipped before `detect_two_way_arbitrage` is invoked. -/
def run_bucket_arb (booklines : List EventOdds) : Option ArbResult :=
  if booklines.length < 2 then none else detect_two_way_arbitrage booklines

/-- Concatenation of all buckets of a grouping, in bucket order. -/
def joinBuckets (bs : List ((Str × Str) × List EventOdds)) : List EventOdds :=
  bs.foldr (fun p acc => p.2 ++ acc) []

/-- The maximum of `f` over a bucket (`0` for an empty bucket, which no claim
uses): the value selected by `max(bucket, key=f)`. -/
def maxOdds (f : EventOdds → ℚ) : List EventOdds → ℚ
  | [] => 0
  | e :: es => es.foldl (fun m x => max m (f x)) (f e)

/-- Modelled from the spec: the summed implied probability
`1/max(odds1 over the bucket) + 1/max(odds2 over the bucket)` that the spec
says `detect` computes; to be compared with `detect_two_way_arbitrage`. -/
def specProbSum (bl : List EventOdds) : ℚ :=
  1 / maxOdds (fun e => e.odds_team1) bl + 1 / maxOdds (fun e => e.odds_team2) bl

/-- A minimal quotation carrying only a participant pair, used to compare the
match key of `(A, B)` with the match key of `(B, A)`. -/
def mkSwapEvent (A B : Str) : EventOdds :=
  { match_id := [], site := [], sport := [], league := none, start_time := none,
    team1 := A, team2 := B, odds_team1 := 2, odds_team2 := 2 }

/-- Scenario quotation S1 of the spec's end-to-end example: odds 2.10 / 1.80
under the name variants "Team A" / "Team B". -/
def ev1 : EventOdds :=
  { match_id := nm "m1", site := nm "S1", sport := nm "CS2", league := none,
    start_time := none, team1 := nm "Team A", team2 := nm "Team B",
    odds_team1 := 21/10, odds_team2 := 9/5 }

/-- Scenario quotation S2: odds 1.95 / 2.05 under "A Esports" / "B Esports". -/
def ev2 : EventOdds :=
  { match_id := nm "m2", site := nm "S2", sport := nm "CS2", league := none,
    start_time := none, team1 := nm "A Esports", team2 := nm "B Esports",
    odds_team1 := 39/20, odds_team2 := 41/20 }

/-- Scenario quotation S3: odds 1.90 / 1.95 under "a" / "b". -/
def ev3 : EventOdds :=
  { match_id := nm "m3", site := nm "S3", sport := nm "CS2", league := none,
    start_time := none, team1 := nm "a", team2 := nm "b",
    odds_team1 := 19/10, odds_team2 := 39/20 }

/-- A lone quotation whose own two odds already price both sides below fair:
a singleton bucket the detector, called directly, accepts. -/
def evSingle : EventOdds :=
  { match_id := nm "m9", site := nm "S9", sport := nm "CS2", league := none,
    start_time := none, team1 := nm "x", team2 := nm "y",
    odds_team1 := 3, odds_team2 := 3 }

/-! Helper lemmas about the string model. -/

theorem isSpaceN_lowerN (n : Nat) : isSpaceN (lowerN n) = isSpaceN n := by
  simp only [lowerN]
  split_ifs with h
  · simp only [isSpaceN, decide_eq_decide]
    omega
  · rfl

theorem lowerN_idem (n : Nat) : lowerN (lowerN n) = lowerN n := by
  simp only [lowerN]
  split_ifs <;> omega

theorem dropWhile_map (f : Nat → Nat) (p : Nat → Bool) (l : List Nat) :
    (l.map f).dropWhile p = (l.dropWhile fun a => p (f a)).map f := by
  induction l with
  | nil => rfl
  | cons x xs ih =>
    by_cases h : p (f x)
    · simp [List.dropWhile_cons, h, ih]
    · simp [List.dropWhile_cons, h]

theorem stripL_lowerStr (s : Str) : stripL (lowerStr s) = lowerStr (stripL s) := by
  have hfun : (fun a => isSpaceN (lowerN a)) = isSpaceN := funext isSpaceN_lowerN
  simp only [stripL, lowerStr]
  rw [dropWhile_map, hfun, ← List.map_reverse, dropWhile_map, hfun, ← List.map_reverse]

theorem lowerStr_idem (s : Str) : lowerStr (lowerStr s) = lowerStr s := by
  simp only [lowerStr, List.map_map]
  congr 1
  funext n
  exact lowerN_idem n

theorem lexLe_total (a b : Str) : lexLe a b = true ∨ lexLe b a = true := by
  induction a generalizing b with
  | nil => left; rfl
  | cons x xs ih =>
    cases b with
    | nil => right; rfl
    | cons y ys =>
      rcases Nat.lt_trichotomy x y with h | h | h
      · left; simp [lexLe, h]
      · subst h
        rcases ih ys with h2 | h2
        · left; simp [lexLe, h2]
        · right; simp [lexLe, h2]
      · right; simp [lexLe, h]

theorem lexLe_antisymm (a b : Str) (h1 : lexLe a b = true) (h2 : lexLe b a = true) :
    a = b := by
  induction a generalizing b with
  | nil =>
    cases b with
    | nil => rfl
    | cons y ys => simp [lexLe] at h2
  | cons x xs ih =>
    cases b with
    | nil => simp [lexLe] at h1
    | cons y ys =>
      rcases Nat.lt_trichotomy x y with h | h | h
      · simp [lexLe, h, Nat.not_lt.mpr (Nat.le_of_lt h), Nat.lt_irrefl] at h2
      · subst h
        simp only [lexLe, Nat.lt_irrefl, if_false] at h1 h2
        rw [ih ys h1 h2]
      · simp [lexLe, h, Nat.not_lt.mpr (Nat.le_of_lt h), Nat.lt_irrefl] at h1

theorem sortPair_comm (a b : Str) : sortPair a b = sortPair b a := by
  by_cases h1 : lexLe a b = true <;> by_cases h2 : lexLe b a = true
  · have h : a = b := lexLe_antisymm a b h1 h2
    subst h; rfl
  · simp [sortPair, h1, h2]
  · simp [sortPair, h1, h2]
  · exfalso
    rcases lexLe_total a b with h | h
    · exact h1 h
    · exact h2 h

/-! Helper lemmas about the numeric model. -/

theorem maxBy_spec (f : EventOdds → ℚ) (xs : List EventOdds) (x : EventOdds) :
    f (maxBy f x xs) = xs.foldl (fun m e => max m (f e)) (f x) := by
  induction xs generalizing x with
  | nil => rfl
  | cons e es ih =>
    have step : maxBy f x (e :: es) = maxBy f (if f x < f e then e else x) es := rfl
    rw [step, ih, List.foldl_cons]
    congr 1
    by_cases h : f x < f e
    · simp [h, max_eq_right (le_of_lt h)]
    · simp [h, max_eq_left (not_lt.mp h)]

theorem maxOdds_eq_maxBy (f : EventOdds → ℚ) (e : EventOdds) (es : List EventOdds) :
    maxOdds f (e :: es) = f (maxBy f e es) :=
  (maxBy_spec f es e).symm

theorem pyRound_close (q : ℚ) : |(pyRound q : ℚ) - q| ≤ 1/2 := by
  have hfl : (⌊q⌋ : ℚ) ≤ q := Int.floor_le q
  have hfl2 : q < ⌊q⌋ + 1 := Int.lt_floor_add_one q
  simp only [pyRound]
  split_ifs with h1 h2 h3 <;> rw [abs_le] <;> constructor <;> push_cast <;> linarith

theorem pyRound_nonneg (q : ℚ) (h : 0 ≤ q) : 0 ≤ pyRound q := by
  have hfl : (0 : ℤ) ≤ ⌊q⌋ := Int.floor_nonneg.mpr h
  simp only [pyRound]
  split_ifs <;> omega

theorem round2_nonneg (q : ℚ) (h : 0 ≤ q) : 0 ≤ round2 q := by
  have h1 : (0 : ℤ) ≤ pyRound (q * 100) := pyRound_nonneg _ (by positivity)
  have h2 : (0 : ℚ) ≤ (pyRound (q * 100) : ℚ) := by exact_mod_cast h1
  simp only [round2]
  positivity

theorem round2_close (q : ℚ) : |round2 q - q| ≤ 1/200 := by
  have h := pyRound_close (q * 100)
  have heq : round2 q - q = ((pyRound (q * 100) : ℚ) - q * 100) / 100 := by
    simp only [round2]; ring
  calc |round2 q - q| = |(pyRound (q * 100) : ℚ) - q * 100| / 100 := by
        rw [heq, abs_div]; norm_num
    _ ≤ (1/2) / 100 := by gcongr
    _ = 1/200 := by norm_num

theorem rawStake1_pos (b o1 o2 : ℚ) (hb : 0 < b) (h1 : 1 < o1) (h2 : 1 < o2) :
    0 < rawStake1 b o1 o2 := by
  have ho1 : 0 < o1 := lt_trans one_pos h1
  have ho2 : 0 < o2 := lt_trans one_pos h2
  simp only [rawStake1]
  positivity

theorem rawStake2_eq (b o1 o2 : ℚ) (h1 : 1 < o1) (h2 : 1 < o2) :
    rawStake2 b o1 o2 = b * ((1 / o2) / (1 / o1 + 1 / o2)) := by
  have ho1 : o1 ≠ 0 := ne_of_gt (lt_trans one_pos h1)
  have ho2 : o2 ≠ 0 := ne_of_gt (lt_trans one_pos h2)
  have hd : 1 / o1 + 1 / o2 ≠ 0 := by positivity
  simp only [rawStake2, rawStake1]
  field_simp
  ring

theorem rawStake2_pos (b o1 o2 : ℚ) (hb : 0 < b) (h1 : 1 < o1) (h2 : 1 < o2) :
    0 < rawStake2 b o1 o2 := by
  have ho1 : 0 < o1 := lt_trans one_pos h1
  have ho2 : 0 < o2 := lt_trans one_pos h2
  rw [rawStake2_eq b o1 o2 h1 h2]
  positivity

/-! Helper lemmas about grouping. -/

theorem joinBuckets_cons (p : (Str × Str) × List EventOdds)
    (bs : List ((Str × Str) × List EventOdds)) :
    joinBuckets (p :: bs) = p.2 ++ joinBuckets bs := rfl

theorem joinBuckets_addToBucket (k : Str × Str) (e : EventOdds) :
    ∀ bs, (joinBuckets (addToBucket k e bs)).Perm (joinBuckets bs ++ [e]) := by
  intro bs
  induction bs with
  | nil => simp [addToBucket, joinBuckets]
  | cons p rest ih =>
    obtain ⟨k', l⟩ := p
    by_cases h : k' = k
    · simp only [addToBucket, if_pos h, joinBuckets_cons]
      rw [List.append_assoc, List.append_assoc]
      exact List.Perm.append_left l List.perm_append_comm
    · simp only [addToBucket, if_neg h, joinBuckets_cons]
      rw [List.append_assoc]
      exact List.Perm.append_left l ih

theorem joinBuckets_foldl (evs : List EventOdds) :
    ∀ bs, (joinBuckets (evs.foldl
        (fun b ev => addToBucket (matchKeyOf ev.team1 ev.team2) ev b) bs)).Perm
      (joinBuckets bs ++ evs) := by
  induction evs with
  | nil => intro bs; simp
  | cons e es ih =>
    intro bs
    rw [List.foldl_cons]
    have h1 := ih (addToBucket (matchKeyOf e.team1 e.team2) e bs)
    have h2 := (joinBuckets_addToBucket (matchKeyOf e.team1 e.team2) e bs).append_right es
    have h3 : (joinBuckets bs ++ [e]) ++ es = joinBuckets bs ++ (e :: es) := by simp
    exact h1.trans (h3 ▸ h2)

theorem keys_addToBucket (k : Str × Str) (e : EventOdds) :
    ∀ bs, (addToBucket k e bs).map Prod.fst =
      if k ∈ bs.map Prod.fst then bs.map Prod.fst else bs.map Prod.fst ++ [k] := by
  intro bs
  induction bs with
  | nil => simp [addToBucket]
  | cons p rest ih =>
    obtain ⟨k', l⟩ := p
    by_cases h : k' = k
    · subst h
      simp [addToBucket]
    · simp only [addToBucket, if_neg h, List.map_cons, ih, List.mem_cons]
      have hne : ¬k = k' := fun hh => h hh.symm
      by_cases hm : k ∈ rest.map Prod.fst
      · simp [hm, hne]
      · simp [hm, hne]

theorem nodup_keys_addToBucket (k : Str × Str) (e : EventOdds)
    (bs : List ((Str × Str) × List EventOdds))
    (h : (bs.map Prod.fst).Nodup) : ((addToBucket k e bs).map Prod.fst).Nodup := by
  rw [keys_addToBucket]
  by_cases hm : k ∈ bs.map Prod.fst
  · simpa [hm] using h
  · simp only [hm, if_false, if_neg]
    simp [List.nodup_append, h, hm]

theorem nodup_keys_foldl (evs : List EventOdds) :
    ∀ bs, (bs.map Prod.fst).Nodup →
      ((evs.foldl (fun b ev => addToBucket (matchKeyOf ev.team1 ev.team2) ev b)
        bs).map Prod.fst).Nodup := by
  induction evs with
  | nil => intro bs h; simpa using h
  | cons e es ih =>
    intro bs h
    rw [List.foldl_cons]
    exact ih _ (nodup_keys_addToBucket _ e bs h)

theorem joinBuckets_length (bs : List ((Str × Str) × List EventOdds)) :
    (joinBuckets bs).length = (bs.map fun p => p.2.length).sum := by
  induction bs with
  | nil => rfl
  | cons p rest ih => simp [joinBuckets_cons, ih]

/-! Claim theorems. -/

/-- C1 (counterexample): in the end-to-end scenario the three quotations do land
in one bucket and `detect` does select S1 @ 2.10 and S2 @ 2.05, but the reported
`probSum` is `830/861 ≈ 0.9640`, more than `0.01` away from the claimed
`≈ 0.9517` (so the margin is `≈ 3.60%`, not `≈ 4.83%`), and
`stake_split(400, 2.10, 2.05)` returns `(197.59, 202.41, 212.53)`, with each
stake more than `1` away from the claimed `202.96 / 197.04` and the profit more
than `10` away from the claimed `26.22`. -/
theorem c1_counterexample :
    group_by_match [ev1, ev2, ev3] = [((nm "a", nm "b"), [ev1, ev2, ev3])] ∧
    detect_two_way_arbitrage [ev1, ev2, ev3] =
      some { team1 := nm "Team A", team2 := nm "B Esports",
             site_team1 := nm "S1", site_team2 := nm "S2",
             odds_team1 := 21/10, odds_team2 := 41/20,
             prob_sum := 830/861, margin := 31/861 } ∧
    (1/100 : ℚ) < 830/861 - 9517/10000 ∧
    (1/100 : ℚ) < 483/10000 - 31/861 ∧
    stake_split 400 (21/10) (41/20) = (19759/100, 20241/100, 21253/100) ∧
    (1 : ℚ) < 20296/100 - 19759/100 ∧
    (1 : ℚ) < 20241/100 - 19704/100 ∧
    (10 : ℚ) < 21253/100 - 2622/100 := by
  refine ⟨rfl, ?_, by norm_num, by norm_num, ?_, by norm_num, by norm_num, by norm_num⟩
  · norm_num [detect_two_way_arbitrage, maxBy, implied_prob, ev1, ev2, ev3]
  · norm_num [stake_split, round2, pyRound, rawStake1, rawStake2, rawProfit]

/-- C1 (amended): three sources quote the event at (2.10/1.80), (1.95/2.05),
(1.90/1.95) under aliasable name variants; grouping places all three in one
bucket; `detect` selects the S1 quotation at 2.10 for side 1 and the S2
quotation at 2.05 for side 2, reporting `probSum = 830/861 ≈ 0.9640` and
`margin = 31/861 ≈ 3.60%`; `stake_split(400, 2.10, 2.05)` returns stakes
197.59 and 202.41 with profit 212.53. -/
theorem c1_end_to_end :
    group_by_match [ev1, ev2, ev3] = [((nm "a", nm "b"), [ev1, ev2, ev3])] ∧
    detect_two_way_arbitrage [ev1, ev2, ev3] =
      some { team1 := nm "Team A", team2 := nm "B Esports",
             site_team1 := nm "S1", site_team2 := nm "S2",
             odds_team1 := 21/10, odds_team2 := 41/20,
             prob_sum := 830/861, margin := 31/861 } ∧
    stake_split 400 (21/10) (41/20) = (19759/100, 20241/100, 21253/100) := by
  refine ⟨rfl, ?_, ?_⟩
  · norm_num [detect_two_way_arbitrage, maxBy, implied_prob, ev1, ev2, ev3]
  · norm_num [stake_split, round2, pyRound, rawStake1, rawStake2, rawProfit]

/-- C2 (counterexample): `detect_two_way_arbitrage` applied directly to a
bucket of size 1 does not return none when the lone quotation's own odds sum
below fair: on `[evSingle]` (odds 3.0 / 3.0) it returns an opportunity. -/
theorem c2_counterexample :
    ([evSingle] : List EventOdds).length = 1 ∧
    detect_two_way_arbitrage [evSingle] =
      some { team1 := nm "x", team2 := nm "y",
             site_team1 := nm "S9", site_team2 := nm "S9",
             odds_team1 := 3, odds_team2 := 3,
             prob_sum := 2/3, margin := 1/3 } := by
  refine ⟨rfl, ?_⟩
  norm_num [detect_two_way_arbitrage, maxBy, implied_prob, evSingle]

/-- C2 (amended): `detect_two_way_arbitrage` returns none on the empty bucket,
and in the pipeline (`run`) every bucket of size 0 or 1 is skipped before the
detector is invoked, so such buckets never yield an opportunity; the detector
itself, called directly on a singleton bucket, may return an opportunity. -/
theorem c2_small_buckets :
    detect_two_way_arbitrage [] = none ∧
    ∀ bl : List EventOdds, bl.length ≤ 1 → run_bucket_arb bl = none := by
  refine ⟨rfl, fun bl h => ?_⟩
  simp only [run_bucket_arb]
  rw [if_pos (by omega)]

/-- C2 (witness): the singleton bucket is skipped by the pipeline's guard. -/
theorem c2_small_buckets_witness :
    ([evSingle] : List EventOdds).length ≤ 1 ∧ run_bucket_arb [evSingle] = none :=
  ⟨by norm_num, c2_small_buckets.2 [evSingle] (by norm_num)⟩

/-- C3 (counterexample): for bankroll 0.03 and odds 2.0 / 2.0 (both > 1, bankroll
> 0) the two rounded stakes are 0.02 and 0.02, which sum to 0.04, not to the
bankroll: the post-rounding sum is not exact. -/
theorem c3_counterexample :
    (0 < (3/100 : ℚ) ∧ (1 : ℚ) < 2) ∧
    stake_split (3/100) 2 2 = (1/50, 1/50, 1/50) ∧
    (1/50 + 1/50 : ℚ) ≠ 3/100 := by
  refine ⟨⟨by norm_num, by norm_num⟩, ?_, by norm_num⟩
  norm_num [stake_split, round2, pyRound, rawStake1, rawStake2, rawProfit]

/-- C3 (amended): for every bankroll > 0 and odds > 1, the unrounded stakes sum
exactly to the bankroll, the two rounded stakes are each non-negative, and the
rounded stakes sum to the bankroll within 0.01 (exactness can be lost to the
two-decimal output rounding, as the counterexample shows). -/
theorem c3_stake_sum (b o1 o2 : ℚ) (hb : 0 < b) (h1 : 1 < o1) (h2 : 1 < o2) :
    rawStake1 b o1 o2 + rawStake2 b o1 o2 = b ∧
    0 ≤ (stake_split b o1 o2).1 ∧ 0 ≤ (stake_split b o1 o2).2.1 ∧
    |(stake_split b o1 o2).1 + (stake_split b o1 o2).2.1 - b| ≤ 1/100 := by
  have hs1 := rawStake1_pos b o1 o2 hb h1 h2
  have hs2 := rawStake2_pos b o1 o2 hb h1 h2
  refine ⟨by simp only [rawStake2]; ring, round2_nonneg _ hs1.le, round2_nonneg _ hs2.le, ?_⟩
  have e1 := round2_close (rawStake1 b o1 o2)
  have e2 := round2_close (rawStake2 b o1 o2)
  have hsum : rawStake1 b o1 o2 + rawStake2 b o1 o2 = b := by
    simp only [rawStake2]; ring
  show |round2 (rawStake1 b o1 o2) + round2 (rawStake2 b o1 o2) - b| ≤ 1/100
  have hsplit : round2 (rawStake1 b o1 o2) + round2 (rawStake2 b o1 o2) - b =
      (round2 (rawStake1 b o1 o2) - rawStake1 b o1 o2) +
      (round2 (rawStake2 b o1 o2) - rawStake2 b o1 o2) := by
    linarith [hsum]
  rw [hsplit]
  have htri := abs_add (round2 (rawStake1 b o1 o2) - rawStake1 b o1 o2)
    (round2 (rawStake2 b o1 o2) - rawStake2 b o1 o2)
  linarith

/-- C3 (witness): at the spec's own allocation example `(100, 2.0, 2.0)`. -/
theorem c3_stake_sum_witness :
    rawStake1 100 2 2 + rawStake2 100 2 2 = 100 ∧
    0 ≤ (stake_split 100 2 2).1 ∧ 0 ≤ (stake_split 100 2 2).2.1 ∧
    |(stake_split 100 2 2).1 + (stake_split 100 2 2).2.1 - 100| ≤ 1/100 :=
  c3_stake_sum 100 2 2 (by norm_num) (by norm_num) (by norm_num)

/-- C4 (counterexample): `normalize_team` is not idempotent: deleting `"team"`
from `"tteameam"` re-creates the substring `"team"`, so one application returns
`"team"` while a second application returns the empty string. -/
theorem c4_counterexample :
    normalize_team (nm "tteameam") = nm "team" ∧
    normalize_team (normalize_team (nm "tteameam")) = [] ∧
    normalize_team (normalize_team (nm "tteameam")) ≠ normalize_team (nm "tteameam") := by
  refine ⟨by decide, by decide, by decide⟩

/-- C4 (amended): `normalize_team` is case-insensitive —
`normalize_team (lowerStr s) = normalize_team s` for every string `s` — and in
particular `normalize_team "Team Liquid" = normalize_team "liquid"`, on which
input it is also idempotent; it is not idempotent for every string. -/
theorem c4_normalize_case_insensitive :
    (∀ s : Str, normalize_team (lowerStr s) = normalize_team s) ∧
    normalize_team (nm "Team Liquid") = normalize_team (nm "liquid") ∧
    normalize_team (normalize_team (nm "Team Liquid")) =
      normalize_team (nm "Team Liquid") := by
  refine ⟨fun s => ?_, by decide, by decide⟩
  simp only [normalize_team]
  rw [stripL_lowerStr, lowerStr_idem]

/-- C5 (confirmed): for every bucket of size at least 2,
`detect_two_way_arbitrage` computes the summed implied probability
`1/max(odds1) + 1/max(odds2)`; when it is strictly below 1 the detector reports
an opportunity carrying exactly that sum and margin `1 - sum`, and when it is
at least 1 the detector returns none. -/
theorem c5_detect_rule (bl : List EventOdds) (h : 2 ≤ bl.length) :
    (specProbSum bl < 1 → ∃ a, detect_two_way_arbitrage bl = some a ∧
      a.prob_sum = specProbSum bl ∧ a.margin = 1 - specProbSum bl) ∧
    (1 ≤ specProbSum bl → detect_two_way_arbitrage bl = none) := by
  cases bl with
  | nil => simp at h
  | cons e es =>
    have e1 : (maxBy (fun x => x.odds_team1) e es).odds_team1 =
        maxOdds (fun x => x.odds_team1) (e :: es) :=
      (maxOdds_eq_maxBy (fun x => x.odds_team1) e es).symm
    have e2 : (maxBy (fun x => x.odds_team2) e es).odds_team2 =
        maxOdds (fun x => x.odds_team2) (e :: es) :=
      (maxOdds_eq_maxBy (fun x => x.odds_team2) e es).symm
    have hps : implied_prob (maxBy (fun x => x.odds_team1) e es).odds_team1 +
        implied_prob (maxBy (fun x => x.odds_team2) e es).odds_team2 =
        specProbSum (e :: es) := by
      simp only [implied_prob, specProbSum, e1, e2]
    constructor
    · intro hlt
      have hdet : detect_two_way_arbitrage (e :: es) =
          some { team1 := (maxBy (fun x => x.odds_team1) e es).team1,
                 team2 := (maxBy (fun x => x.odds_team2) e es).team2,
                 site_team1 := (maxBy (fun x => x.odds_team1) e es).site,
                 site_team2 := (maxBy (fun x => x.odds_team2) e es).site,
                 odds_team1 := (maxBy (fun x => x.odds_team1) e es).odds_team1,
                 odds_team2 := (maxBy (fun x => x.odds_team2) e es).odds_team2,
                 prob_sum := specProbSum (e :: es),
                 margin := 1 - specProbSum (e :: es) } := by
        simp only [detect_two_way_arbitrage]
        rw [hps, if_pos hlt]
      exact ⟨_, hdet, rfl, rfl⟩
    · intro hge
      simp only [detect_two_way_arbitrage]
      rw [hps, if_neg (not_lt.mpr hge)]

/-- C5 (witness): on the two-element bucket `[ev1, ev2]`, whose probability sum
`830/861` is below 1, the detector reports that sum and margin. -/
theorem c5_detect_rule_witness :
    2 ≤ ([ev1, ev2] : List EventOdds).length ∧
    ∃ a, detect_two_way_arbitrage [ev1, ev2] = some a ∧
      a.prob_sum = specProbSum [ev1, ev2] ∧ a.margin = 1 - specProbSum [ev1, ev2] :=
  ⟨by norm_num,
   (c5_detect_rule [ev1, ev2] (by norm_num)).1
     (by norm_num [specProbSum, maxOdds, ev1, ev2])⟩

/-- C6 (counterexample): at bankroll 400 and odds 2.10 / 2.05 (a genuine
arbitrage input), the two legs' raw profit expressions of `stake_split` differ:
`s1 * (odds1 - 1) = 18040/83` while `s2 * (odds2 - 1) = 17640/83`. -/
theorem c6_counterexample :
    (0 < (400 : ℚ) ∧ (1 : ℚ) < 21/10 ∧ (1 : ℚ) < 41/20 ∧
      1/(21/10 : ℚ) + 1/(41/20 : ℚ) < 1) ∧
    rawStake1 400 (21/10) (41/20) * (21/10 - 1) ≠
      rawStake2 400 (21/10) (41/20) * (41/20 - 1) := by
  norm_num [rawStake1, rawStake2]

/-- C6 (amended): what is equal by construction is the two legs' raw payout,
`stake1 * odds1 = stake2 * odds2` (both equal `bankroll / (1/odds1 + 1/odds2)`);
the raw profits `stake_i * (odds_i - 1)` computed by `stake_split` coincide only
when the two odds are equal. -/
theorem c6_equal_payout (b o1 o2 : ℚ) (hb : 0 < b) (h1 : 1 < o1) (h2 : 1 < o2)
    (harb : 1/o1 + 1/o2 < 1) :
    rawStake1 b o1 o2 * o1 = rawStake2 b o1 o2 * o2 := by
  have ho1 : o1 ≠ 0 := ne_of_gt (lt_trans one_pos h1)
  have ho2 : o2 ≠ 0 := ne_of_gt (lt_trans one_pos h2)
  have hd : 1 / o1 + 1 / o2 ≠ 0 := by positivity
  simp only [rawStake2, rawStake1]
  field_simp
  ring

/-- C6 (witness): equal payouts at `(400, 2.10, 2.05)`. -/
theorem c6_equal_payout_witness :
    rawStake1 400 (21/10) (41/20) * (21/10) = rawStake2 400 (21/10) (41/20) * (41/20) :=
  c6_equal_payout 400 (21/10) (41/20) (by norm_num) (by norm_num) (by norm_num)
    (by norm_num)

/-- C7 (counterexample): for bankroll 0.001 and odds 2.10 / 2.10 (an arbitrage
input with bankroll > 0) the raw guaranteed profit 0.00055 rounds to 0.00, so
the profit returned by `stake_split` is not strictly positive. -/
theorem c7_counterexample :
    (0 < (1/1000 : ℚ) ∧ (1 : ℚ) < 21/10 ∧ 1/(21/10 : ℚ) + 1/(21/10 : ℚ) < 1) ∧
    (stake_split (1/1000) (21/10) (21/10)).2.2 = 0 := by
  refine ⟨⟨by norm_num, by norm_num, by norm_num⟩, ?_⟩
  norm_num [stake_split, round2, pyRound, rawStake1, rawStake2, rawProfit]

/-- C7 (amended): under the arbitrage condition the raw (unrounded) profit of
`stake_split` is strictly positive, and the returned (rounded) profit is
non-negative; strict positivity can be lost to the two-decimal output rounding,
as the counterexample shows. -/
theorem c7_profit_pos (b o1 o2 : ℚ) (hb : 0 < b) (h1 : 1 < o1) (h2 : 1 < o2)
    (harb : 1/o1 + 1/o2 < 1) :
    0 < rawProfit b o1 o2 ∧ 0 ≤ (stake_split b o1 o2).2.2 := by
  have hs1 := rawStake1_pos b o1 o2 hb h1 h2
  have hs2 := rawStake2_pos b o1 o2 hb h1 h2
  have hp : 0 < rawProfit b o1 o2 := by
    have p1 : 0 < rawStake1 b o1 o2 * (o1 - 1) := mul_pos hs1 (by linarith)
    have p2 : 0 < rawStake2 b o1 o2 * (o2 - 1) := mul_pos hs2 (by linarith)
    exact lt_min p1 p2
  exact ⟨hp, round2_nonneg _ hp.le⟩

/-- C7 (witness): at `(400, 2.10, 2.05)`. -/
theorem c7_profit_pos_witness :
    0 < rawProfit 400 (21/10) (41/20) ∧ 0 ≤ (stake_split 400 (21/10) (41/20)).2.2 :=
  c7_profit_pos 400 (21/10) (41/20) (by norm_num) (by norm_num) (by norm_num)
    (by norm_num)

/-- C8 (confirmed): the match key is order-independent: for every pair of
participant names, the grouping key of `group_by_match` and the sorted
`teams_key` computed from `(A, B)` equal those computed from `(B, A)`. -/
theorem c8_matchkey_symm :
    ∀ A B : Str, matchKeyOf A B = matchKeyOf B A ∧
      (mkSwapEvent A B).teams_key = (mkSwapEvent B A).teams_key := by
  intro A B
  constructor
  · simp only [matchKeyOf]
    exact sortPair_comm _ _
  · simp only [EventOdds.teams_key, mkSwapEvent]
    exact sortPair_comm _ _

/-- C9 (confirmed): `group_by_match` partitions its input: the concatenation of
all buckets is a permutation of the input list (no quotation dropped or
duplicated), the bucket keys are pairwise distinct (each quotation lies in
exactly one bucket), and the bucket sizes sum to the input length. -/
theorem c9_group_partition (evs : List EventOdds) :
    (joinBuckets (group_by_match evs)).Perm evs ∧
    ((group_by_match evs).map Prod.fst).Nodup ∧
    ((group_by_match evs).map fun p => p.2.length).sum = evs.length := by
  have hp : (joinBuckets (group_by_match evs)).Perm evs := by
    have h := joinBuckets_foldl evs []
    simpa [group_by_match, joinBuckets] using h
  refine ⟨hp, ?_, ?_⟩
  · exact nodup_keys_foldl evs [] (by simp)
  · rw [← joinBuckets_length]
    exact hp.length_eq

/-- C10 (confirmed): raw names reduced to the empty string by the
normalization pipeline — such as "Team", "Esports" and "Team Esports" — all
canonicalize to the same empty identity, so distinct such names are grouped as
the same participant. -/
theorem c10_empty_identity :
    (normalize_team (nm "Team") = [] ∧ normalize_team (nm "Esports") = [] ∧
      normalize_team (nm "Team Esports") = []) ∧
    ∀ s t : Str, normalize_team s = [] → normalize_team t = [] →
      alias_lookup s = alias_lookup t := by
  refine ⟨⟨by decide, by decide, by decide⟩, fun s t hs ht => ?_⟩
  simp only [alias_lookup]
  rw [hs, ht]

/-- C10 (witness): "Team" and "Esports" canonicalize to the same identity. -/
theorem c10_empty_identity_witness :
    alias_lookup (nm "Team") = alias_lookup (nm "Esports") :=
  c10_empty_identity.2 (nm "Team") (nm "Esports") (by decide) (by decide)

end ArbMon
